import Mathlib

/-!
# pkg/ui/request.go

A shallow embedding of the request wrapper of package `ui`: `NewRequest`,
`Request.IsActive` and `Request.RenderTempl`, with the parts of `net/http`,
`net/url`, `echo` and `templ` they read.

Conventions of the embedding.

* A Go pointer that the code tests against `nil` is an `Option`; `none` is `nil`.
* A Go `interface{}` value is an `Any`: its dynamic type and its value.
* A Go `map[string]T` is an association list searched with `List.lookup`.
* The request of a context and the URL of a request are present: `echo` hands
  a handler a context whose `Request()` and `Request().URL` are set.
* `error` is `Option GoError`, `none` being the `nil` error.
-/

set_option autoImplicit false
set_option linter.unnecessarySeqFocus false

/-! ## net/textproto, net/http, net/url -/

namespace textproto

/-- The punctuation bytes of an RFC 7230 token, by code: the exclamation mark,
hash, dollar, percent, ampersand, apostrophe, star, plus, dash, dot, caret,
underscore, backquote, bar and tilde. -/
def tokenPunct : List Nat :=
  [33, 35, 36, 37, 38, 39, 42, 43, 45, 46, 94, 95, 96, 124, 126]

/-- The bytes allowed in a header field name: letters, digits and the
punctuation of an RFC 7230 token. -/
def validHeaderFieldByte (c : Char) : Bool :=
  c.isAlphanum || tokenPunct.contains c.toNat

/-- The canonicalizing loop: upper case for the first letter and for a letter
after a dash, lower case elsewhere. -/
def canonicalLoop : Bool → List Char → List Char
  | _, [] => []
  | upper, c :: cs =>
    let c1 :=
      if upper && c.isLower then c.toUpper
      else if !upper && c.isUpper then c.toLower
      else c
    c1 :: canonicalLoop (c1 == '-') cs

/-- The canonical format of a MIME header key; a key holding a space or a
byte that is not allowed in a field name is returned unchanged. -/
def CanonicalMIMEHeaderKey (s : String) : String :=
  if s.toList.all validHeaderFieldByte then String.mk (canonicalLoop true s.toList) else s

end textproto

namespace http

/-- The type `http.Header`, a `map[string][]string` keyed by canonical names. -/
abbrev Header := List (String × List String)

/-- The method `Header.Get`: the first value stored under the canonical form
of `key`, or the empty string when there is none. -/
def Header.Get (h : Header) (key : String) : String :=
  match (h.lookup (textproto.CanonicalMIMEHeaderKey key)).getD [] with
  | [] => ""
  | v :: _ => v

end http

namespace url

/-- The type `url.URL`, with the fields a handler usually reads. -/
structure URL where
  Path : String
  RawQuery : String := ""
  deriving DecidableEq, Repr

end url

namespace context

/-- The type `context.Context` of a request, by identity. -/
structure Context where
  id : Nat
  deriving DecidableEq, Repr

end context

namespace io

/-- The type `io.Writer`, by identity; what was written lives in the state
that `Render` acts on. -/
structure Writer where
  id : Nat
  deriving DecidableEq, Repr

end io

namespace http

/-- The type `http.Request`, as read here: `Header`, `URL` and `Context()`. -/
structure Request where
  Header : Header
  URL : url.URL
  Context : context.Context
  deriving DecidableEq, Repr

end http

/-! ## ent, config -/

namespace ent

/-- Modelled from the spec: the declaration of the entity `ent.User` is not
part of the sources. `Admin` is the field `NewRequest` reads ("marked as an
administrator"); `ID` stands for the rest of the record. -/
structure User where
  ID : Int
  Admin : Bool
  deriving DecidableEq, Repr

end ent

namespace config

/-- Modelled from the spec: the declaration of `config.Config` is not part of
the sources; `NewRequest` only passes the reference on. -/
structure Config where
  id : Nat
  deriving DecidableEq, Repr

end config

/-! ## interface values and the echo context -/

/-- A Go `interface{}` value as stored in the context: the `nil` interface, a
`*ent.User` (possibly a nil pointer), a `*config.Config` (possibly a nil
pointer), a `string`, or a value of some other dynamic type. -/
inductive Any where
  | nil
  | user (p : Option ent.User)
  | config (p : Option config.Config)
  | str (s : String)
  | other (tag : Nat)
  deriving DecidableEq, Repr

/-- The type assertion `v.(*ent.User)` in its two-result form. -/
def Any.assertUser : Any → Option ent.User × Bool
  | .user p => (p, true)
  | _ => (none, false)

/-- The type assertion `v.(*config.Config)` in its two-result form. -/
def Any.assertConfig : Any → Option config.Config × Bool
  | .config p => (p, true)
  | _ => (none, false)

/-- The type assertion `v.(string)` in its two-result form. -/
def Any.assertString : Any → String × Bool
  | .str s => (s, true)
  | _ => ("", false)

namespace ctx

/-- Modelled from the spec: the keys of package `context` under which the
middleware stores the authenticated user, the configuration and the CSRF
token. Their values are not part of the sources and are parameters here. -/
structure Keys where
  AuthenticatedUserKey : String
  ConfigKey : String
  CSRFKey : String
  deriving DecidableEq, Repr

end ctx

namespace echo

/-- The type `echo.Response`, as read here: its `Writer`. -/
structure Response where
  Writer : io.Writer
  deriving DecidableEq, Repr

/-- The type `echo.Context`, as read here: the key-value store behind `Get`,
`Request()` and `Response()`. -/
structure Context where
  store : List (String × Any)
  Request : http.Request
  Response : Response
  deriving DecidableEq, Repr

/-- The method `Context.Get`: the stored value, the `nil` interface when the
key is absent. -/
def Context.Get (c : Context) (key : String) : Any :=
  (c.store.lookup key).getD Any.nil

end echo

/-! ## package ui -/

/-- Metatags contains the metatags for the current request. -/
structure Metatags where
  Description : String := ""
  Keywords : List String := []
  deriving DecidableEq, Repr

/-- Htmx contains the HTMX context for the current request. -/
structure Htmx where
  Enabled : Bool := false
  Boosted : Bool := false
  Target : String := ""
  Trigger : String := ""
  deriving DecidableEq, Repr

/-- Request contains the context for the current request. -/
structure Request where
  Context : echo.Context
  Config : Option config.Config := none
  URL : url.URL
  CurrentPath : String := ""
  IsAuth : Bool := false
  IsAdmin : Bool := false
  AuthUser : Option ent.User := none
  Msg : String := ""
  Title : String := ""
  Metatags : Metatags := {}
  CSRF : String := ""
  Htmx : Htmx := {}
  deriving DecidableEq, Repr

/-- A run-time panic of the Go program. -/
inductive Panic where
  | nilDereference
  deriving DecidableEq, Repr

/-- The field read `u.Admin` through a `*ent.User`: a panic on a nil pointer. -/
def derefAdmin : Option ent.User → Except Panic Bool
  | some u => .ok u.Admin
  | none => .error Panic.nilDereference

/-- NewRequest creates a new Request. -/
def NewRequest (k : ctx.Keys) (c : echo.Context) : Except Panic Request := do
  let (u, ok) := (c.Get k.AuthenticatedUserKey).assertUser
  let (cfg, _) := (c.Get k.ConfigKey).assertConfig
  let (csrf, _) := (c.Get k.CSRFKey).assertString
  let r : Request :=
    { Context := c
      Config := cfg
      URL := c.Request.URL
      CurrentPath := c.Request.URL.Path
      IsAuth := ok && u.isSome
      AuthUser := u
      IsAdmin := false
      CSRF := csrf }
  let r ←
    if r.IsAuth then do
      let admin ← derefAdmin r.AuthUser
      pure { r with IsAdmin := admin }
    else pure r
  -- Check for HTMX request
  let r :=
    if c.Request.Header.Get "HX-Request" = "true" then
      { r with
        Htmx :=
          { Enabled := true
            Boosted := c.Request.Header.Get "HX-Boosted" == "true"
            Target := c.Request.Header.Get "HX-Target"
            Trigger := c.Request.Header.Get "HX-Trigger" } }
    else r
  return r

/-- IsActive returns true if the given path is the current path. -/
def Request.IsActive (r : Request) (path : String) : Bool :=
  r.CurrentPath == path

/-! ## templ and rendering -/

/-- A non-nil value of the Go type `error`. -/
structure GoError where
  msg : String
  deriving DecidableEq, Repr

namespace templ

/-- The interface `templ.Component`: `Render(ctx, w)` acts on the state `σ`
(the bytes written to `w` and whatever else rendering touches) and returns an
error or `nil`. -/
structure Component (σ : Type) where
  Render : context.Context → io.Writer → σ → Option GoError × σ

end templ

/-- The type of the `layout` argument, `func(*Request, templ.Component)
templ.Component`; like every Go function it may act on the state. -/
abbrev Layout (σ : Type) := Request → templ.Component σ → σ → templ.Component σ × σ

/-- A call made by `RenderTempl`, with its arguments and the value it returned. -/
inductive Call (σ : Type) where
  | layout (r : Request) (component : templ.Component σ) (ret : templ.Component σ)
  | render (component : templ.Component σ) (c : context.Context) (w : io.Writer)
      (ret : Option GoError)

/-- Whether a call is a call of the layout function. -/
def Call.isLayout {σ : Type} : Call σ → Bool
  | .layout _ _ _ => true
  | .render _ _ _ _ => false

/-- Whether a call is a call of a component's `Render`. -/
def Call.isRender {σ : Type} : Call σ → Bool
  | .layout _ _ _ => false
  | .render _ _ _ _ => true

/-- The state `RenderTempl` runs in: the state rendering acts on, and the
calls made so far, oldest first. -/
structure Machine (σ : Type) where
  world : σ
  calls : List (Call σ)

/-- The call `component.Render(c, w)`. -/
def callRender {σ : Type} (component : templ.Component σ) (c : context.Context) (w : io.Writer) :
    StateM (Machine σ) (Option GoError) := fun m =>
  let out := component.Render c w m.world
  (out.1, { world := out.2, calls := m.calls ++ [Call.render component c w out.1] })

/-- The call `layout(r, component)`. -/
def callLayout {σ : Type} (layout : Layout σ) (r : Request) (component : templ.Component σ) :
    StateM (Machine σ) (templ.Component σ) := fun m =>
  let out := layout r component m.world
  (out.1, { world := out.2, calls := m.calls ++ [Call.layout r component out.1] })

/-- RenderTempl renders a Templ component. -/
def Request.RenderTempl {σ : Type} (r : Request) (layout : Option (Layout σ))
    (component : templ.Component σ) : StateM (Machine σ) (Option GoError) := do
  -- If HTMX is enabled and not boosted, render only the component (partial)
  if r.Htmx.Enabled && !r.Htmx.Boosted then
    return ← callRender component r.Context.Request.Context r.Context.Response.Writer
  -- Otherwise, render the full layout
  if let some l := layout then
    let wrapped ← callLayout l r component
    return ← callRender wrapped r.Context.Request.Context r.Context.Response.Writer
  return ← callRender component r.Context.Request.Context r.Context.Response.Writer

/-! ## Sample inputs -/

/-- The keys as package `context` of the application names them. -/
def sampleKeys : ctx.Keys :=
  { AuthenticatedUserKey := "auth_user", ConfigKey := "config", CSRFKey := "csrf" }

/-- An HTMX request for `/about` by an administrator. -/
def sampleContext : echo.Context :=
  { store := [("auth_user", Any.user (some { ID := 1, Admin := true })), ("csrf", Any.str "tok")]
    Request :=
      { Header := [("Hx-Request", ["true"]), ("Hx-Target", ["main"])]
        URL := { Path := "/about" }
        Context := { id := 0 } }
    Response := { Writer := { id := 0 } } }

/-- A plain request for `/` without a user, whose other HTMX headers are set. -/
def plainContext : echo.Context :=
  { store := [("auth_user", Any.str "admin")]
    Request :=
      { Header := [("Hx-Boosted", ["true"]), ("Hx-Target", ["main"]), ("Hx-Trigger", ["btn"])]
        URL := { Path := "/" }
        Context := { id := 1 } }
    Response := { Writer := { id := 1 } } }

/-- A fragment request: HTMX enabled, not boosted. -/
def fragmentRequest : Request :=
  { Context := sampleContext, URL := sampleContext.Request.URL, CurrentPath := "/about"
    Htmx := { Enabled := true, Target := "main" } }

/-- A boosted HTMX request. -/
def boostedRequest : Request :=
  { Context := sampleContext, URL := sampleContext.Request.URL, CurrentPath := "/about"
    Htmx := { Enabled := true, Boosted := true } }

/-- A component that writes one paragraph and returns nil. -/
def pageComponent : templ.Component (List String) :=
  { Render := fun _ _ out => (none, out ++ ["<p>about</p>"]) }

/-- A component whose write fails. -/
def failingComponent : templ.Component (List String) :=
  { Render := fun _ _ out => (some { msg := "write: broken pipe" }, out) }

/-- A layout that wraps a component in a page, stopping at its error. -/
def pageLayout : Layout (List String) := fun _ inner s =>
  ({ Render := fun c w out =>
      match inner.Render c w (out ++ ["<html>"]) with
      | (none, out1) => (none, out1 ++ ["</html>"])
      | (some e, out1) => (some e, out1) }, s)

/-- The result of a run, in comparable form: the error returned, what was
written, and for each call whether it was a call of the layout. -/
def observe (out : Option GoError × Machine (List String)) :
    Option GoError × List String × List Bool :=
  (out.1, out.2.world, out.2.calls.map Call.isLayout)

/-! ## Lemmas -/

theorem canonical_HX_Request : textproto.CanonicalMIMEHeaderKey "HX-Request" = "Hx-Request" := by
  decide

theorem canonical_HX_Boosted : textproto.CanonicalMIMEHeaderKey "HX-Boosted" = "Hx-Boosted" := by
  decide

theorem Header_Get_of_lookup_none (h : http.Header) (key : String)
    (hk : h.lookup (textproto.CanonicalMIMEHeaderKey key) = none) : h.Get key = "" := by
  simp [http.Header.Get, hk]

theorem Header_Get_of_lookup_cons (h : http.Header) (key v : String) (vs : List String)
    (hk : h.lookup (textproto.CanonicalMIMEHeaderKey key) = some (v :: vs)) : h.Get key = v := by
  simp [http.Header.Get, hk]

/-- The function `NewRequest` returns, and the fields of what it returns. -/
theorem NewRequest_ok (k : ctx.Keys) (c : echo.Context) :
    ∃ r, NewRequest k c = .ok r ∧
      r.Context = c ∧ r.URL = c.Request.URL ∧ r.CurrentPath = c.Request.URL.Path ∧
      r.AuthUser = (c.Get k.AuthenticatedUserKey).assertUser.1 ∧
      r.IsAuth = ((c.Get k.AuthenticatedUserKey).assertUser.2 &&
        (c.Get k.AuthenticatedUserKey).assertUser.1.isSome) ∧
      (r.IsAdmin = true ↔ r.IsAuth = true ∧ ∃ u, r.AuthUser = some u ∧ u.Admin = true) ∧
      r.Htmx =
        if c.Request.Header.Get "HX-Request" = "true" then
          { Enabled := true
            Boosted := c.Request.Header.Get "HX-Boosted" == "true"
            Target := c.Request.Header.Get "HX-Target"
            Trigger := c.Request.Header.Get "HX-Trigger" }
        else { Enabled := false, Boosted := false, Target := "", Trigger := "" } := by
  unfold NewRequest
  by_cases hx : c.Request.Header.Get "HX-Request" = "true"
  · cases h : c.Get k.AuthenticatedUserKey with
    | user p => cases p <;> simp [Any.assertUser, derefAdmin, hx] <;> simp [pure, Except.pure]
    | _ => simp [Any.assertUser, derefAdmin, hx] <;> simp [pure, Except.pure]
  · cases h : c.Get k.AuthenticatedUserKey with
    | user p => cases p <;> simp [Any.assertUser, derefAdmin, hx] <;> simp [pure, Except.pure]
    | _ => simp [Any.assertUser, derefAdmin, hx] <;> simp [pure, Except.pure]

theorem String_append_slash_ne (p : String) : p ++ "/" ≠ p := by
  intro h
  have hl := congrArg String.length h
  simp only [String.length_append] at hl
  have h1 : "/".length = 1 := by decide
  omega

/-! ## NewRequest: the HTMX flags -/

/-- C1: a request whose header map holds `Hx-Request` (the canonical name of
HX-Request) with first value "true" and holds no `Hx-Boosted` gives a Request
with Htmx.Enabled = true and Htmx.Boosted = false. -/
theorem NewRequest_htmx_enabled_not_boosted (k : ctx.Keys) (c : echo.Context) (vs : List String)
    (hreq : c.Request.Header.lookup "Hx-Request" = some ("true" :: vs))
    (hboost : c.Request.Header.lookup "Hx-Boosted" = none) :
    ∃ r, NewRequest k c = .ok r ∧ r.Htmx.Enabled = true ∧ r.Htmx.Boosted = false := by
  obtain ⟨r, hr, -, -, -, -, -, -, hh⟩ := NewRequest_ok k c
  have h1 : c.Request.Header.Get "HX-Request" = "true" :=
    Header_Get_of_lookup_cons _ _ _ vs (by rw [canonical_HX_Request]; exact hreq)
  have h2 : c.Request.Header.Get "HX-Boosted" = "" :=
    Header_Get_of_lookup_none _ _ (by rw [canonical_HX_Boosted]; exact hboost)
  refine ⟨r, hr, ?_, ?_⟩ <;> simp [hh, h1, h2]

theorem NewRequest_htmx_enabled_not_boosted_witness :
    sampleContext.Request.Header.lookup "Hx-Request" = some ["true"] ∧
    sampleContext.Request.Header.lookup "Hx-Boosted" = none ∧
    ∃ r, NewRequest sampleKeys sampleContext = .ok r ∧
      r.Htmx.Enabled = true ∧ r.Htmx.Boosted = false :=
  ⟨by decide, by decide,
    NewRequest_htmx_enabled_not_boosted sampleKeys sampleContext [] (by decide) (by decide)⟩

/-- C2: a request whose header map holds no `Hx-Request` (the canonical name
of HX-Request) gives Htmx.Enabled = false, whatever else the header map holds. -/
theorem NewRequest_htmx_disabled_without_header (k : ctx.Keys) (c : echo.Context)
    (hreq : c.Request.Header.lookup "Hx-Request" = none) :
    ∃ r, NewRequest k c = .ok r ∧ r.Htmx.Enabled = false := by
  obtain ⟨r, hr, -, -, -, -, -, -, hh⟩ := NewRequest_ok k c
  have h1 : c.Request.Header.Get "HX-Request" = "" :=
    Header_Get_of_lookup_none _ _ (by rw [canonical_HX_Request]; exact hreq)
  refine ⟨r, hr, ?_⟩
  simp [hh, h1]

theorem NewRequest_htmx_disabled_without_header_witness :
    plainContext.Request.Header.lookup "Hx-Request" = none ∧
    plainContext.Request.Header.lookup "Hx-Boosted" = some ["true"] ∧
    ∃ r, NewRequest sampleKeys plainContext = .ok r ∧ r.Htmx.Enabled = false :=
  ⟨by decide, by decide,
    NewRequest_htmx_disabled_without_header sampleKeys plainContext (by decide)⟩

/-- C9: Htmx.Enabled is true exactly when `Header.Get("HX-Request")` is the
string "true" ("True", "1" and "" give false); when it is not, Htmx is the
zero value whatever the other headers are; when it is, Boosted tells whether
`Get("HX-Boosted")` is "true", Target is `Get("HX-Target")` and Trigger is
`Get("HX-Trigger")`. -/
theorem NewRequest_htmx_fields (k : ctx.Keys) (c : echo.Context) :
    ∃ r, NewRequest k c = .ok r ∧
      (r.Htmx.Enabled = true ↔ c.Request.Header.Get "HX-Request" = "true") ∧
      (c.Request.Header.Get "HX-Request" ∈ ["True", "1", ""] → r.Htmx.Enabled = false) ∧
      (c.Request.Header.Get "HX-Request" ≠ "true" →
        r.Htmx = { Enabled := false, Boosted := false, Target := "", Trigger := "" }) ∧
      (c.Request.Header.Get "HX-Request" = "true" →
        (r.Htmx.Boosted = true ↔ c.Request.Header.Get "HX-Boosted" = "true") ∧
        r.Htmx.Target = c.Request.Header.Get "HX-Target" ∧
        r.Htmx.Trigger = c.Request.Header.Get "HX-Trigger") := by
  obtain ⟨r, hr, -, -, -, -, -, -, hh⟩ := NewRequest_ok k c
  refine ⟨r, hr, ?_, ?_, ?_, ?_⟩
  · by_cases hx : c.Request.Header.Get "HX-Request" = "true" <;> simp [hh, hx]
  · intro hm
    have hx : c.Request.Header.Get "HX-Request" ≠ "true" := by
      intro h
      rw [h] at hm
      revert hm
      decide
    simp [hh, hx]
  · intro hx
    simp [hh, hx]
  · intro hx
    simp [hh, hx]

/-! ## NewRequest: the authentication flags -/

/-- C3: when the value stored under the authenticated-user key is not a
non-nil `*ent.User` (it is absent, of another type, or a nil pointer), the
Request has IsAuth = false and IsAdmin = false. -/
theorem NewRequest_no_user (k : ctx.Keys) (c : echo.Context)
    (hu : ∀ u, c.Get k.AuthenticatedUserKey ≠ Any.user (some u)) :
    ∃ r, NewRequest k c = .ok r ∧ r.IsAuth = false ∧ r.IsAdmin = false := by
  obtain ⟨r, hr, -, -, -, -, hauth, hadmin, -⟩ := NewRequest_ok k c
  have h1 : r.IsAuth = false := by
    rw [hauth]
    cases h : c.Get k.AuthenticatedUserKey with
    | user p =>
      cases p with
      | none => simp [Any.assertUser]
      | some u => exact absurd h (hu u)
    | _ => simp [Any.assertUser]
  refine ⟨r, hr, h1, ?_⟩
  cases h2 : r.IsAdmin with
  | false => rfl
  | true => simp [hadmin.mp h2] at h1

theorem NewRequest_no_user_witness :
    (∀ u, plainContext.Get sampleKeys.AuthenticatedUserKey ≠ Any.user (some u)) ∧
    ∃ r, NewRequest sampleKeys plainContext = .ok r ∧ r.IsAuth = false ∧ r.IsAdmin = false :=
  ⟨by intro u; simp [echo.Context.Get, plainContext, sampleKeys],
    NewRequest_no_user sampleKeys plainContext
      (by intro u; simp [echo.Context.Get, plainContext, sampleKeys])⟩

/-- C4: when the value stored under the authenticated-user key is a non-nil
`*ent.User` whose Admin field is true, the Request has IsAdmin = true,
IsAuth = true and AuthUser = that user. -/
theorem NewRequest_admin_user (k : ctx.Keys) (c : echo.Context) (u : ent.User)
    (hu : c.Get k.AuthenticatedUserKey = Any.user (some u)) (ha : u.Admin = true) :
    ∃ r, NewRequest k c = .ok r ∧ r.IsAdmin = true ∧ r.IsAuth = true ∧ r.AuthUser = some u := by
  obtain ⟨r, hr, -, -, -, huser, hauth, hadmin, -⟩ := NewRequest_ok k c
  have h1 : r.AuthUser = some u := by simp [huser, hu, Any.assertUser]
  have h2 : r.IsAuth = true := by simp [hauth, hu, Any.assertUser]
  exact ⟨r, hr, hadmin.mpr ⟨h2, u, h1, ha⟩, h2, h1⟩

theorem NewRequest_admin_user_witness :
    sampleContext.Get sampleKeys.AuthenticatedUserKey = Any.user (some { ID := 1, Admin := true }) ∧
    (({ ID := 1, Admin := true } : ent.User).Admin = true) ∧
    ∃ r, NewRequest sampleKeys sampleContext = .ok r ∧ r.IsAdmin = true ∧ r.IsAuth = true ∧
      r.AuthUser = some { ID := 1, Admin := true } :=
  ⟨by decide, rfl,
    NewRequest_admin_user sampleKeys sampleContext { ID := 1, Admin := true } (by decide) rfl⟩

/-- C8: `NewRequest` returns on every context (the read of AuthUser.Admin
never meets a nil AuthUser), and in the Request it returns IsAuth is true
exactly when the value stored under the authenticated-user key is a non-nil
`*ent.User` (a nil `*ent.User` gives false), IsAdmin is true exactly when IsAuth
is and AuthUser.Admin is, IsAdmin implies IsAuth, and IsAuth implies a non-nil
AuthUser. -/
theorem NewRequest_auth_invariant (k : ctx.Keys) (c : echo.Context) :
    ∃ r, NewRequest k c = .ok r ∧
      (r.IsAuth = true ↔ ∃ u, c.Get k.AuthenticatedUserKey = Any.user (some u)) ∧
      (c.Get k.AuthenticatedUserKey = Any.user none → r.IsAuth = false) ∧
      (r.IsAdmin = true ↔ r.IsAuth = true ∧ ∃ u, r.AuthUser = some u ∧ u.Admin = true) ∧
      (r.IsAdmin = true → r.IsAuth = true) ∧
      (r.IsAuth = true → r.AuthUser ≠ none) := by
  obtain ⟨r, hr, -, -, -, huser, hauth, hadmin, -⟩ := NewRequest_ok k c
  have key : r.IsAuth = true ↔ ∃ u, c.Get k.AuthenticatedUserKey = Any.user (some u) := by
    rw [hauth]
    cases h : c.Get k.AuthenticatedUserKey with
    | user p => cases p <;> simp [Any.assertUser]
    | _ => simp [Any.assertUser]
  refine ⟨r, hr, key, ?_, hadmin, fun h => (hadmin.mp h).1, ?_⟩
  · intro h
    simp [hauth, h, Any.assertUser]
  · intro h
    obtain ⟨u, hu⟩ := key.mp h
    simp [huser, hu, Any.assertUser]

/-! ## IsActive -/

/-- C5: `NewRequest(c).IsActive(path)` is true exactly when `path` is the
request's URL path as a string; a path with a trailing slash added is not
active, nor is a different path that agrees up to letter case. -/
theorem IsActive_iff_exact_path (k : ctx.Keys) (c : echo.Context) (path : String) :
    ∃ r, NewRequest k c = .ok r ∧
      (r.IsActive path = true ↔ path = c.Request.URL.Path) ∧
      r.IsActive (c.Request.URL.Path ++ "/") = false ∧
      (path.toLower = c.Request.URL.Path.toLower → path ≠ c.Request.URL.Path →
        r.IsActive path = false) := by
  obtain ⟨r, hr, -, -, hpath, -⟩ := NewRequest_ok k c
  refine ⟨r, hr, ?_, ?_, ?_⟩
  · simp only [Request.IsActive, hpath, beq_iff_eq]
    exact eq_comm
  · have hne := String_append_slash_ne c.Request.URL.Path
    simp only [Request.IsActive, hpath, beq_eq_false_iff_ne]
    exact fun h => hne h.symm
  · intro _ hne
    simp [Request.IsActive, hpath, Ne.symm hne]

/-! ## RenderTempl -/

theorem RenderTempl_fragment {σ : Type} (r : Request) (layout : Option (Layout σ))
    (component : templ.Component σ) (m : Machine σ)
    (h : (r.Htmx.Enabled && !r.Htmx.Boosted) = true) :
    (r.RenderTempl layout component).run m =
      callRender component r.Context.Request.Context r.Context.Response.Writer m := by
  simp only [Request.RenderTempl, h, StateT.run, bind, StateT.bind, pure, StateT.pure]
  rfl

theorem RenderTempl_layout {σ : Type} (r : Request) (l : Layout σ)
    (component : templ.Component σ) (m : Machine σ)
    (h : (r.Htmx.Enabled && !r.Htmx.Boosted) = false) :
    (r.RenderTempl (some l) component).run m =
      callRender (callLayout l r component m).1 r.Context.Request.Context
        r.Context.Response.Writer (callLayout l r component m).2 := by
  simp only [Request.RenderTempl, h, StateT.run, bind, StateT.bind, pure, StateT.pure]
  rfl

theorem RenderTempl_no_layout {σ : Type} (r : Request)
    (component : templ.Component σ) (m : Machine σ) :
    (r.RenderTempl none component).run m =
      callRender component r.Context.Request.Context r.Context.Response.Writer m := by
  cases h : (r.Htmx.Enabled && !r.Htmx.Boosted)
  · simp only [Request.RenderTempl, h, StateT.run, bind, StateT.bind, pure, StateT.pure]
    rfl
  · exact RenderTempl_fragment r none component m h

/-- C6: with a non-nil layout, when Htmx.Enabled is true and Htmx.Boosted is
false `RenderTempl` makes one call, `component.Render`, returns its result and
does not call the layout; otherwise it calls `layout(r, component)` and then
`Render` of the component the layout returned, whose result it returns, and
makes no other call. -/
theorem RenderTempl_call_shape {σ : Type} (r : Request) (layout : Layout σ)
    (component : templ.Component σ) (m : Machine σ) :
    (r.Htmx.Enabled = true ∧ r.Htmx.Boosted = false →
      (r.RenderTempl (some layout) component).run m =
        ((component.Render r.Context.Request.Context r.Context.Response.Writer m.world).1,
          { world :=
              (component.Render r.Context.Request.Context r.Context.Response.Writer m.world).2
            calls := m.calls ++
              [Call.render component r.Context.Request.Context r.Context.Response.Writer
                (component.Render r.Context.Request.Context r.Context.Response.Writer
                  m.world).1] })) ∧
    (¬(r.Htmx.Enabled = true ∧ r.Htmx.Boosted = false) →
      ∀ (wrapped : templ.Component σ) (s : σ), layout r component m.world = (wrapped, s) →
        (r.RenderTempl (some layout) component).run m =
          ((wrapped.Render r.Context.Request.Context r.Context.Response.Writer s).1,
            { world := (wrapped.Render r.Context.Request.Context r.Context.Response.Writer s).2
              calls := m.calls ++
                [Call.layout r component wrapped,
                  Call.render wrapped r.Context.Request.Context r.Context.Response.Writer
                    (wrapped.Render r.Context.Request.Context r.Context.Response.Writer
                      s).1] })) := by
  constructor
  · rintro ⟨he, hb⟩
    rw [RenderTempl_fragment r (some layout) component m (by simp [he, hb])]
    rfl
  · intro hn wrapped s hl
    have hc : (r.Htmx.Enabled && !r.Htmx.Boosted) = false := by
      cases he : r.Htmx.Enabled <;> cases hb : r.Htmx.Boosted <;> simp_all
    rw [RenderTempl_layout r layout component m hc]
    simp [callRender, callLayout, hl]

/-- C7: `RenderTempl` makes exactly one `Render` call, its last call, and the
error it returns is the value that call returned, whether an error or nil. On
the fragment branch (Htmx.Enabled and not Htmx.Boosted) and with a nil layout
the call is the first one and is `Render` of the component itself, in the
state `RenderTempl` started in; on the layout branch (not a fragment request,
layout not nil) it follows the call of the layout and is `Render` of the
component the layout returned, in the state the layout left. -/
theorem RenderTempl_returns_render_result {σ : Type} (r : Request) (layout : Option (Layout σ))
    (component : templ.Component σ) (m : Machine σ) :
    ∃ (pre : List (Call σ)) (target : templ.Component σ) (s : σ),
      ((r.RenderTempl layout component).run m).2.calls =
        m.calls ++ pre ++
          [Call.render target r.Context.Request.Context r.Context.Response.Writer
            (target.Render r.Context.Request.Context r.Context.Response.Writer s).1] ∧
      pre.countP Call.isRender = 0 ∧
      (pre ++
          [Call.render target r.Context.Request.Context r.Context.Response.Writer
            (target.Render r.Context.Request.Context r.Context.Response.Writer s).1]).countP
        Call.isRender = 1 ∧
      ((r.RenderTempl layout component).run m).1 =
        (target.Render r.Context.Request.Context r.Context.Response.Writer s).1 ∧
      ((r.RenderTempl layout component).run m).2.world =
        (target.Render r.Context.Request.Context r.Context.Response.Writer s).2 ∧
      ((((r.Htmx.Enabled = true ∧ r.Htmx.Boosted = false) ∨ layout = none) ∧
          pre = [] ∧ target = component ∧ s = m.world) ∨
        (¬(r.Htmx.Enabled = true ∧ r.Htmx.Boosted = false) ∧
          ∃ l, layout = some l ∧ pre = [Call.layout r component target] ∧
            l r component m.world = (target, s))) := by
  cases hc : (r.Htmx.Enabled && !r.Htmx.Boosted) with
  | true =>
    have hf : r.Htmx.Enabled = true ∧ r.Htmx.Boosted = false := by
      cases he : r.Htmx.Enabled <;> cases hb : r.Htmx.Boosted <;> simp_all
    refine ⟨[], component, m.world, ?_, rfl, rfl, ?_, ?_,
      Or.inl ⟨Or.inl hf, rfl, rfl, rfl⟩⟩ <;>
      rw [RenderTempl_fragment r layout component m hc] <;> simp [callRender]
  | false =>
    have hn : ¬(r.Htmx.Enabled = true ∧ r.Htmx.Boosted = false) := by
      rintro ⟨he, hb⟩
      simp [he, hb] at hc
    cases layout with
    | none =>
      refine ⟨[], component, m.world, ?_, rfl, rfl, ?_, ?_,
        Or.inl ⟨Or.inr rfl, rfl, rfl, rfl⟩⟩ <;>
        rw [RenderTempl_no_layout r component m] <;> simp [callRender]
    | some l =>
      refine ⟨[Call.layout r component (l r component m.world).1], (l r component m.world).1,
        (l r component m.world).2, ?_, rfl, rfl, ?_, ?_, Or.inr ⟨hn, l, rfl, rfl, rfl⟩⟩ <;>
        rw [RenderTempl_layout r l component m hc] <;> simp [callRender, callLayout]

/-- C10: with a nil layout `RenderTempl` makes one call, `component.Render` on
the component itself, and returns its result, whatever Htmx.Enabled and
Htmx.Boosted are; the layout is not called. -/
theorem RenderTempl_nil_layout {σ : Type} (r : Request) (component : templ.Component σ)
    (m : Machine σ) :
    (r.RenderTempl none component).run m =
      ((component.Render r.Context.Request.Context r.Context.Response.Writer m.world).1,
        { world :=
            (component.Render r.Context.Request.Context r.Context.Response.Writer m.world).2
          calls := m.calls ++
            [Call.render component r.Context.Request.Context r.Context.Response.Writer
              (component.Render r.Context.Request.Context r.Context.Response.Writer
                m.world).1] }) := by
  rw [RenderTempl_no_layout r component m]
  rfl

/-! ## Runs on the sample inputs -/

theorem NewRequest_sample :
    (NewRequest sampleKeys sampleContext).toOption.map
        (fun r => (r.IsAuth, r.IsAdmin, r.CurrentPath, r.CSRF, r.Htmx)) =
      some (true, true, "/about", "tok",
        { Enabled := true, Boosted := false, Target := "main", Trigger := "" }) := by
  decide

theorem NewRequest_plain_sample :
    (NewRequest sampleKeys plainContext).toOption.map
        (fun r => (r.IsAuth, r.IsAdmin, r.AuthUser, r.CurrentPath, r.Htmx)) =
      some (false, false, none, "/",
        { Enabled := false, Boosted := false, Target := "", Trigger := "" }) := by
  decide

theorem RenderTempl_sample_fragment :
    observe ((fragmentRequest.RenderTempl (some pageLayout) pageComponent).run
        { world := [], calls := [] }) =
      (none, ["<p>about</p>"], [false]) := by
  decide

theorem RenderTempl_sample_boosted :
    observe ((boostedRequest.RenderTempl (some pageLayout) pageComponent).run
        { world := [], calls := [] }) =
      (none, ["<html>", "<p>about</p>", "</html>"], [true, false]) := by
  decide

theorem RenderTempl_sample_failure :
    observe ((boostedRequest.RenderTempl (some pageLayout) failingComponent).run
        { world := [], calls := [] }) =
      (some { msg := "write: broken pipe" }, ["<html>"], [true, false]) := by
  decide

theorem RenderTempl_sample_nil_layout :
    observe ((boostedRequest.RenderTempl none pageComponent).run
        { world := [], calls := [] }) =
      (none, ["<p>about</p>"], [false]) := by
  decide
